import Mathlib

/-!
Verification of the local-ai-chatbot backend (streaming bridge and
conversation session model) against its natural-language specification.

The Python sources are shallowly embedded below:

- the queue bridge of CustomHuggingFaceChatModel._astream
  (src/backend/src/ChatModel.py and src/backend/model.py);
- the SSE generator ChatAPI.stream_response (src/backend/src/ChatApi.py)
  and the legacy stream_response of src/backend/app.py;
- the /api/chat route guard (src/backend/src/Routes.py, src/backend/app.py);
- Conversation._trim_history, Conversation._prepare_messages_for_model,
  Conversation.send_message, Conversation._load_messages
  (src/backend/src/Conversation.py);
- Database.save_message and Database.get_conversation_messages
  (src/backend/src/Database.py).

Timestamps (Python datetime instants / their isoformat strings, whose
lexicographic order is chronological order) are modelled as naturals.
-/

namespace Chatbot

/-- Message role: the Python code uses the strings "user" and "assistant". -/
inductive Role where
  | user
  | assistant
deriving DecidableEq, Repr

/-- Conversation.Message: one in-memory turn (role, content, timestamp). -/
structure Message where
  role : Role
  content : String
  timestamp : Nat
deriving DecidableEq, Repr

/-- One row of the conversation_messages table, in insertion (rowid) order.
Database.save_message appends exactly one such row. -/
structure DBRow where
  role : Role
  content : String
  timestamp : Nat
deriving DecidableEq, Repr

/-! ## Token relay: the queue bridge inside _astream

In _astream the generation thread feeds a TextIteratorStreamer; the
streamer_to_queue thread forwards every token of the streamer to an
asyncio.Queue and finally enqueues the None sentinel; the async consumer
loop dequeues until it sees None.  The queue is FIFO with a single
producer, so the consumer dequeues exactly the enqueued sequence. -/

/-- streamer_to_queue: the sequence of items the producer thread enqueues
for a generation run that yields the given tokens: each token wrapped in
some, then the terminal None sentinel. -/
def streamer_to_queue (tokens : List String) : List (Option String) :=
  tokens.map some ++ [none]

/-- The consumer loop of _astream: dequeue items in order and yield the
token of each until the None sentinel is dequeued, then stop. -/
def consume : List (Option String) → List String
  | [] => []
  | none :: _ => []
  | some t :: rest => t :: consume rest

/-! ## Wire frames and the SSE generators -/

/-- One SSE data frame: a JSON object with optional token, error and title
keys and a continuing flag, as produced by json.dumps in the sources. -/
structure Frame where
  token : Option String
  continuing : Bool
  error : Option String
  title : Option String
deriving DecidableEq, Repr

/-- data: {"token": t, "continuing": true} -/
def tokenFrame (t : String) : Frame :=
  { token := some t, continuing := true, error := none, title := none }

/-- data: {"title": t, "continuing": true} -/
def titleFrame (t : String) : Frame :=
  { token := none, continuing := true, error := none, title := some t }

/-- data: {"continuing": false} -/
def finalFrame : Frame :=
  { token := none, continuing := false, error := none, title := none }

/-- data: {"error": e, "continuing": false} -/
def errorFrame (e : String) : Frame :=
  { token := none, continuing := false, error := some e, title := none }

/-- Behaviour of one generation run of the engine as observed through the
relay: either it completes normally after yielding chunks, or it raises
after yielding a prefix of chunks. -/
inductive EngineResult where
  | ok (chunks : List String)
  | fail (pre : List String) (err : String)
deriving DecidableEq, Repr

/-- Python truthiness of chunk.strip(): stripping surrounding whitespace
leaves a non-empty string exactly when some character of the chunk is
not whitespace. -/
def keptChunk (c : String) : Bool :=
  c.data.any (fun ch => !ch.isWhitespace)

/-- The chunks that Conversation.send_message actually yields (it skips a
chunk unless chunk_content and chunk_content.strip() are truthy). -/
def yieldedChunks (chunks : List String) : List String :=
  chunks.filter keptChunk

/-- The accumulated response current_response: the concatenation of the
yielded chunks (both send_message and stream_response accumulate exactly
the chunks that pass the strip test). -/
def accumulate (chunks : List String) : String :=
  String.join (yieldedChunks chunks)

/-- The observable result of one ChatAPI.stream_response run: the emitted
SSE frames, the post-request rows of the conversation in the store, the
post-request in-memory message list, and the titles passed to
db.update_conversation_title during the run. -/
structure StreamResult where
  frames : List Frame
  store : List DBRow
  mem : List Message
  titleUpdates : List String
deriving DecidableEq, Repr

/-- ChatAPI.stream_response (src/backend/src/ChatApi.py, lines 163-200),
for one request.  Inputs: the conversation rows already in the store, the
in-memory message list, the request message, the timestamp tu of the
user_msg created by stream_response, the timestamp tsm of the duplicate
user Message created inside Conversation.send_message, the timestamp ta
of the assistant Message created there, the engine behaviour, and the
title that generate_conversation_title would return.  Steps, in source
order: is_first_message is computed from the stored history; the user
turn is appended to memory and saved; send_message appends its own user
Message and streams the engine chunks (each kept chunk is yielded as a
token frame); on normal completion send_message appends the assistant
Message, then stream_response saves the assistant turn with
user_msg.timestamp, emits the title frame when is_first_message, and
emits the final frame; when the engine raises, the except clause emits a
single error frame instead. -/
def stream_response (store : List DBRow) (mem : List Message)
    (message : String) (tu tsm ta : Nat) (engine : EngineResult)
    (title : String) : StreamResult :=
  let isFirst := store.length == 0
  let mem1 := mem ++ [⟨Role.user, message, tu⟩]
  let store1 := store ++ [⟨Role.user, message, tu⟩]
  let mem2 := mem1 ++ [⟨Role.user, message, tsm⟩]
  match engine with
  | EngineResult.fail pre err =>
      { frames := (yieldedChunks pre).map tokenFrame ++ [errorFrame err]
        store := store1
        mem := mem2
        titleUpdates := [] }
  | EngineResult.ok chunks =>
      let resp := accumulate chunks
      let mem3 := mem2 ++ [⟨Role.assistant, resp, ta⟩]
      let store2 := store1 ++ [⟨Role.assistant, resp, tu⟩]
      if isFirst then
        { frames := (yieldedChunks chunks).map tokenFrame
                      ++ [titleFrame title, finalFrame]
          store := store2
          mem := mem3
          titleUpdates := [title] }
      else
        { frames := (yieldedChunks chunks).map tokenFrame ++ [finalFrame]
          store := store2
          mem := mem3
          titleUpdates := [] }

/-- The legacy stream_response of src/backend/app.py (lines 33-90): the
inner run_generation generator has no exception handler, so when the
engine raises mid-stream the exception propagates out of the generator
and the response is cut after the already-emitted token frames; only on
normal completion is the final continuing-false frame emitted. -/
def stream_response_legacy (engine : EngineResult) : List Frame :=
  match engine with
  | EngineResult.fail pre _ => (yieldedChunks pre).map tokenFrame
  | EngineResult.ok chunks =>
      (yieldedChunks chunks).map tokenFrame ++ [finalFrame]

/-- What one /api/chat request does: the frames of the response body plus
whether the RAG retriever, the generation engine, and the store were
touched. -/
structure ChatRouteTrace where
  frames : List Frame
  ragInvoked : Bool
  generationInvoked : Bool
  storeMutated : Bool
deriving DecidableEq, Repr

/-- The /api/chat endpoint of src/backend/src/Routes.py (lines 121-177).
message is data.get with default "" (a missing field reads as ""); when
message is falsy the route returns the single error frame immediately,
before query_rag, before stream_response and before any store write;
otherwise the RAG context (when non-empty) is prepended to the message
and chat_api.stream_response is consumed. -/
def chat_route (msg : Option String) (ragResult : String)
    (store : List DBRow) (mem : List Message) (tu tsm ta : Nat)
    (engine : EngineResult) (title : String) : ChatRouteTrace :=
  let message := msg.getD ""
  if message.isEmpty then
    { frames := [errorFrame "Message is required"]
      ragInvoked := false
      generationInvoked := false
      storeMutated := false }
  else
    let message2 :=
      if ragResult.isEmpty then message
      else "Context: " ++ ragResult ++ "\n\nUser: " ++ message
    let r := stream_response store mem message2 tu tsm ta engine title
    { frames := r.frames
      ragInvoked := true
      generationInvoked := true
      storeMutated := true }

/-! ## Conversation history: trimming and prompt windows -/

/-- The Python slice l[-k:] for a natural k: for k > 0 it keeps the last
k elements (all of them when k exceeds the length); for k = 0 the slice
is l[0:], the whole list, because -0 is 0. -/
def pySliceLast (k : Nat) (l : List α) : List α :=
  if k = 0 then l else l.drop (l.length - k)

/-- Conversation._trim_history (src/backend/src/Conversation.py, lines
107-112): when the message count exceeds max_history * 2, keep
messages[-max_history * 2:]. -/
def trim_history (max_history : Nat) (messages : List Message) :
    List Message :=
  if messages.length > max_history * 2 then
    pySliceLast (max_history * 2) messages
  else
    messages

/-- A LangChain message passed to the model: HumanMessage or AIMessage. -/
inductive ModelMessage where
  | human (content : String)
  | ai (content : String)
deriving DecidableEq, Repr

/-- The role-directed conversion used in _prepare_messages_for_model:
user turns become HumanMessage, all others AIMessage. -/
def toModelMessage (m : Message) : ModelMessage :=
  match m.role with
  | Role.user => ModelMessage.human m.content
  | Role.assistant => ModelMessage.ai m.content

/-- Conversation._prepare_messages_for_model (src/backend/src/
Conversation.py, lines 91-105): an optional leading system entry (a
HumanMessage tagged "System: ", appended only when the system prompt is
truthy) followed by the slice messages[-max_history * 2:] converted by
role. -/
def prepare_messages_for_model (system_prompt : String)
    (max_history : Nat) (messages : List Message) : List ModelMessage :=
  (if system_prompt.isEmpty then []
   else [ModelMessage.human ("System: " ++ system_prompt)]) ++
  (pySliceLast (max_history * 2) messages).map toModelMessage

/-! ## The store: persistence order and reload order

Database.save_message appends one row; rows carry monotonically
increasing rowids, so the table in insertion order is a list.
Database.get_conversation_messages selects the rows ORDER BY timestamp
ASC; this is modelled as a stable sort on timestamps of the
insertion-ordered row list (rows with equal timestamps keep rowid
order). -/

/-- Stable insertion of a row into an already-sorted (by timestamp,
non-decreasing) list: the row goes in front of the first strictly later
row, hence after every row with the same timestamp. -/
def insertRow (r : DBRow) : List DBRow → List DBRow
  | [] => [r]
  | x :: xs =>
      if r.timestamp < x.timestamp then r :: x :: xs
      else x :: insertRow r xs

/-- ORDER BY timestamp ASC over the insertion-ordered rows, as a stable
insertion sort (earlier rows are inserted first, so equal timestamps
keep insertion order). -/
def orderByTimestamp (rows : List DBRow) : List DBRow :=
  rows.foldl (fun acc r => insertRow r acc) []

/-- Database.get_conversation_messages (src/backend/src/Database.py,
lines 220-238): the conversation rows ordered by timestamp. -/
def get_conversation_messages (rows : List DBRow) : List DBRow :=
  orderByTimestamp rows

/-- The Message a stored row parses back to in
Conversation._load_messages. -/
def rowToMessage (r : DBRow) : Message :=
  { role := r.role, content := r.content, timestamp := r.timestamp }

/-- Conversation._load_messages (src/backend/src/Conversation.py, lines
196-214): read the conversation rows via get_conversation_messages and
rebuild the in-memory Message list in that order. -/
def load_messages (rows : List DBRow) : List Message :=
  (get_conversation_messages rows).map rowToMessage

/-! ## Runs of successive exchanges against one conversation -/

/-- The per-request inputs of one successfully completed exchange. -/
structure Exchange where
  message : String
  tu : Nat
  tsm : Nat
  ta : Nat
  chunks : List String
  title : String
deriving DecidableEq, Repr

/-- The evolving state of one conversation across requests: its rows in
the store, its in-memory message list, and every title ever passed to
db.update_conversation_title for it. -/
structure ConvState where
  store : List DBRow
  mem : List Message
  titleUpdates : List String
deriving DecidableEq, Repr

/-- Run a sequence of successfully completed exchanges through
ChatAPI.stream_response, threading the store and the memory. -/
def runConv (s : ConvState) : List Exchange → ConvState
  | [] => s
  | e :: rest =>
      let r := stream_response s.store s.mem e.message e.tu e.tsm e.ta
        (EngineResult.ok e.chunks) e.title
      runConv { store := r.store, mem := r.mem,
                titleUpdates := s.titleUpdates ++ r.titleUpdates } rest

/-- Number of title frames among some frames. -/
def titleFrameCount (fs : List Frame) : Nat :=
  (fs.filter (fun f => f.title.isSome)).length

/-- Per-exchange title log of a run: for each successive exchange, the
titles persisted during it and the number of title frames it emitted. -/
def runTitleLog (store : List DBRow) (mem : List Message) :
    List Exchange → List (List String × Nat)
  | [] => []
  | e :: rest =>
      let r := stream_response store mem e.message e.tu e.tsm e.ta
        (EngineResult.ok e.chunks) e.title
      (r.titleUpdates, titleFrameCount r.frames)
        :: runTitleLog r.store r.mem rest

/-- The three in-memory messages one successful exchange appends: the
user turn appended by stream_response, the duplicate user turn appended
by send_message, and the assistant turn. -/
def exchangeMem (e : Exchange) : List Message :=
  [⟨Role.user, e.message, e.tu⟩, ⟨Role.user, e.message, e.tsm⟩,
   ⟨Role.assistant, accumulate e.chunks, e.ta⟩]

/-- The in-memory messages a list of successful exchanges appends. -/
def memLog : List Exchange → List Message
  | [] => []
  | e :: rest => exchangeMem e ++ memLog rest

/-- Number of terminal (continuing = false) frames in a frame list. -/
def terminalCount (fs : List Frame) : Nat :=
  (fs.filter (fun f => f.continuing == false)).length

/-- A concrete sample turn used in concrete evaluations. -/
def sampleMsg : Message :=
  { role := Role.user, content := "hi", timestamp := 0 }

/-- A concrete persisted user row used in concrete evaluations. -/
def rowU : DBRow :=
  { role := Role.user, content := "u", timestamp := 3 }

/-- A concrete persisted assistant row used in concrete evaluations. -/
def rowA : DBRow :=
  { role := Role.assistant, content := "a", timestamp := 3 }

/-! ## Helper lemmas -/

lemma stream_response_fail_eq (store : List DBRow) (mem : List Message)
    (message : String) (tu tsm ta : Nat) (pre : List String)
    (err : String) (title : String) :
    stream_response store mem message tu tsm ta
        (EngineResult.fail pre err) title =
      { frames := (yieldedChunks pre).map tokenFrame ++ [errorFrame err]
        store := store ++ [⟨Role.user, message, tu⟩]
        mem := mem ++ [⟨Role.user, message, tu⟩, ⟨Role.user, message, tsm⟩]
        titleUpdates := [] } := by
  simp [stream_response]

lemma stream_response_ok_first (mem : List Message) (message : String)
    (tu tsm ta : Nat) (chunks : List String) (title : String) :
    stream_response [] mem message tu tsm ta
        (EngineResult.ok chunks) title =
      { frames := (yieldedChunks chunks).map tokenFrame
                    ++ [titleFrame title, finalFrame]
        store := [⟨Role.user, message, tu⟩,
                  ⟨Role.assistant, accumulate chunks, tu⟩]
        mem := mem ++ [⟨Role.user, message, tu⟩,
                       ⟨Role.user, message, tsm⟩,
                       ⟨Role.assistant, accumulate chunks, ta⟩]
        titleUpdates := [title] } := by
  simp [stream_response]

lemma stream_response_ok_rest (store : List DBRow) (hs : store ≠ [])
    (mem : List Message) (message : String) (tu tsm ta : Nat)
    (chunks : List String) (title : String) :
    stream_response store mem message tu tsm ta
        (EngineResult.ok chunks) title =
      { frames := (yieldedChunks chunks).map tokenFrame ++ [finalFrame]
        store := store ++ [⟨Role.user, message, tu⟩,
                           ⟨Role.assistant, accumulate chunks, tu⟩]
        mem := mem ++ [⟨Role.user, message, tu⟩,
                       ⟨Role.user, message, tsm⟩,
                       ⟨Role.assistant, accumulate chunks, ta⟩]
        titleUpdates := [] } := by
  have hlen : (store.length == 0) = false := by
    simp [List.length_eq_zero, hs]
  simp [stream_response, hlen]

lemma stream_response_ok_mem (store : List DBRow) (mem : List Message)
    (message : String) (tu tsm ta : Nat) (chunks : List String)
    (title : String) :
    (stream_response store mem message tu tsm ta
        (EngineResult.ok chunks) title).mem =
      mem ++ [⟨Role.user, message, tu⟩, ⟨Role.user, message, tsm⟩,
              ⟨Role.assistant, accumulate chunks, ta⟩] := by
  by_cases hs : store = []
  · subst hs
    rw [stream_response_ok_first]
  · rw [stream_response_ok_rest store hs]

lemma tokenFrame_mem_continuing (l : List String) (g : Frame)
    (hg : g ∈ l.map tokenFrame) : g.continuing = true := by
  rcases List.mem_map.mp hg with ⟨t, _, rfl⟩
  rfl

lemma titleFrameCount_tokens_final (l : List String) :
    titleFrameCount (l.map tokenFrame ++ [finalFrame]) = 0 := by
  unfold titleFrameCount
  rw [List.length_eq_zero, List.filter_eq_nil_iff]
  intro f hf
  rcases List.mem_append.mp hf with h1 | h1
  · rcases List.mem_map.mp h1 with ⟨t, _, rfl⟩
    simp [tokenFrame]
  · rcases List.mem_singleton.mp h1 with rfl
    simp [finalFrame]

lemma titleFrameCount_tokens_title_final (l : List String) (t : String) :
    titleFrameCount (l.map tokenFrame ++ [titleFrame t, finalFrame]) = 1 := by
  unfold titleFrameCount
  rw [List.filter_append]
  have h1 : (l.map tokenFrame).filter (fun f => f.title.isSome) = [] := by
    rw [List.filter_eq_nil_iff]
    intro f hf
    rcases List.mem_map.mp hf with ⟨x, _, rfl⟩
    simp [tokenFrame]
  rw [h1]
  simp [titleFrame, finalFrame]

lemma insertRow_append (r : DBRow) (acc : List DBRow)
    (h : ∀ x ∈ acc, x.timestamp ≤ r.timestamp) :
    insertRow r acc = acc ++ [r] := by
  induction acc with
  | nil => rfl
  | cons x xs ih =>
      have hx : x.timestamp ≤ r.timestamp := h x (by simp)
      have hlt : ¬ (r.timestamp < x.timestamp) := by omega
      simp only [insertRow, if_neg hlt, List.cons_append, List.cons.injEq,
        true_and]
      exact ih (fun y hy => h y (by simp [hy]))

lemma foldl_insertRow_sorted (rows : List DBRow) (acc : List DBRow)
    (hrows : rows.Pairwise (fun x y => x.timestamp ≤ y.timestamp))
    (hcross : ∀ x ∈ acc, ∀ y ∈ rows, x.timestamp ≤ y.timestamp) :
    rows.foldl (fun a r => insertRow r a) acc = acc ++ rows := by
  induction rows generalizing acc with
  | nil => simp
  | cons r rs ih =>
      rcases List.pairwise_cons.mp hrows with ⟨hr, hrs⟩
      rw [List.foldl_cons,
        insertRow_append r acc (fun x hx => hcross x hx r (by simp))]
      rw [ih (acc ++ [r]) hrs ?hcr]
      · simp
      case hcr =>
        intro x hx y hy
        rcases List.mem_append.mp hx with h1 | h1
        · exact hcross x h1 y (by simp [hy])
        · rcases List.mem_singleton.mp h1 with rfl
          exact hr y hy

lemma orderByTimestamp_eq_self (rows : List DBRow)
    (h : rows.Pairwise (fun x y => x.timestamp ≤ y.timestamp)) :
    orderByTimestamp rows = rows := by
  unfold orderByTimestamp
  rw [foldl_insertRow_sorted rows [] h (by simp)]
  simp

lemma runConv_mem (s : ConvState) (es : List Exchange) :
    (runConv s es).mem = s.mem ++ memLog es := by
  induction es generalizing s with
  | nil => simp [runConv, memLog]
  | cons e rest ih =>
      rw [runConv, ih]
      simp [stream_response_ok_mem, memLog, exchangeMem]

lemma memLog_length (es : List Exchange) :
    (memLog es).length = 3 * es.length := by
  induction es with
  | nil => rfl
  | cons e rest ih =>
      rw [memLog, List.length_append, ih]
      simp only [exchangeMem, List.length_cons, List.length_nil,
        List.length_singleton]
      omega

lemma runTitleLog_of_store_ne_nil (store : List DBRow) (hs : store ≠ [])
    (mem : List Message) (es : List Exchange) :
    runTitleLog store mem es = es.map (fun _ => ([], 0)) := by
  induction es generalizing store mem with
  | nil => rfl
  | cons e rest ih =>
      rw [runTitleLog, stream_response_ok_rest store hs]
      simp only [titleFrameCount_tokens_final, List.map_cons]
      refine congrArg _ ?_
      exact ih (store ++ _) (by simp) _

/-! ## Claim theorems -/

/-- C1: for every finite sequence of tokens forwarded by the generation
thread through the queue bridge of _astream, the consumer loop observes
exactly those tokens, in order, exactly once each; the producer enqueues
exactly one terminal None sentinel, and whatever sits in the queue after
the sentinel, the consumer yields nothing beyond the tokens. -/
theorem relay_delivers_tokens_once_in_order (tokens : List String)
    (extra : List (Option String)) :
    consume (streamer_to_queue tokens ++ extra) = tokens ∧
    (streamer_to_queue tokens).count none = 1 := by
  constructor
  · induction tokens with
    | nil => rfl
    | cons t ts ih =>
        simpa [streamer_to_queue, consume] using ih
  · induction tokens with
    | nil => rfl
    | cons t ts ih =>
        simpa [streamer_to_queue, List.count_cons] using ih

/-- C2 counterexample: in the legacy app.py stream_response, an engine
failure after one emitted token leaves a frame sequence with no
continuing-false frame at all, so the frame sequence does not contain
exactly one terminal frame. -/
theorem legacy_failure_no_terminal_frame :
    ¬ (terminalCount
        (stream_response_legacy (EngineResult.fail ["tok"] "boom")) = 1) := by
  decide

/-- C2 amended: every run of ChatAPI.stream_response emits exactly one
continuing-false frame, as its last frame; the legacy app.py generator
guarantees the same only when generation completes normally. -/
theorem stream_single_terminal_frame (store : List DBRow)
    (mem : List Message) (message : String) (tu tsm ta : Nat)
    (engine : EngineResult) (title : String) (chunks : List String) :
    (∃ body lastF,
      (stream_response store mem message tu tsm ta engine title).frames =
        body ++ [lastF] ∧ lastF.continuing = false ∧
      ∀ g ∈ body, g.continuing = true) ∧
    (∃ body lastF,
      stream_response_legacy (EngineResult.ok chunks) = body ++ [lastF] ∧
      lastF.continuing = false ∧ ∀ g ∈ body, g.continuing = true) := by
  constructor
  · cases engine with
    | fail pre err =>
        refine ⟨(yieldedChunks pre).map tokenFrame, errorFrame err, ?_, rfl, ?_⟩
        · rw [stream_response_fail_eq]
        · exact fun g hg => tokenFrame_mem_continuing _ g hg
    | ok chunksE =>
        by_cases hs : store = []
        · subst hs
          refine ⟨(yieldedChunks chunksE).map tokenFrame ++ [titleFrame title],
            finalFrame, ?_, rfl, ?_⟩
          · rw [stream_response_ok_first]
            simp
          · intro g hg
            rcases List.mem_append.mp hg with h1 | h1
            · exact tokenFrame_mem_continuing _ g h1
            · rcases List.mem_singleton.mp h1 with rfl
              rfl
        · refine ⟨(yieldedChunks chunksE).map tokenFrame, finalFrame, ?_, rfl, ?_⟩
          · rw [stream_response_ok_rest store hs]
          · exact fun g hg => tokenFrame_mem_continuing _ g hg
  · refine ⟨(yieldedChunks chunks).map tokenFrame, finalFrame, rfl, rfl, ?_⟩
    exact fun g hg => tokenFrame_mem_continuing _ g hg

/-- C3: a chat request whose message field is missing or empty yields the
single immediate terminal error frame, with no RAG retrieval, no
generation and no store mutation. -/
theorem empty_message_immediate_error (msg : Option String)
    (h : msg = none ∨ msg = some "") (ragResult : String)
    (store : List DBRow) (mem : List Message) (tu tsm ta : Nat)
    (engine : EngineResult) (title : String) :
    chat_route msg ragResult store mem tu tsm ta engine title =
      { frames := [errorFrame "Message is required"]
        ragInvoked := false
        generationInvoked := false
        storeMutated := false } := by
  rcases h with h | h <;> subst h <;> rfl

/-- Witness for C3 at the concrete empty-message request. -/
theorem empty_message_immediate_error_witness :
    chat_route (some "") "ctx" [] [] 0 0 0 (EngineResult.ok ["x"]) "T" =
      { frames := [errorFrame "Message is required"]
        ragInvoked := false
        generationInvoked := false
        storeMutated := false } :=
  empty_message_immediate_error (some "") (Or.inr rfl) "ctx" [] [] 0 0 0
    (EngineResult.ok ["x"]) "T"

/-- C4 counterexample: with max_history = 0 the Python slice
messages[-0:] keeps the whole list, so with one stored turn the
post-trim length exceeds 2 * max_pairs = 0. -/
theorem trim_history_zero_counterexample :
    ¬ ((trim_history 0 [sampleMsg]).length ≤ 2 * 0) := by
  decide

/-- C4 amended: for every max_pairs ≥ 1 and every message list, after
_trim_history the length is at most 2 * max_pairs and the surviving
turns are exactly the final segment of the pre-trim list, in order. -/
theorem trim_history_bound (k : Nat) (hk : 1 ≤ k) (ms : List Message) :
    (trim_history k ms).length ≤ 2 * k ∧
    trim_history k ms = ms.drop (ms.length - 2 * k) := by
  have h2 : k * 2 = 2 * k := Nat.mul_comm k 2
  unfold trim_history pySliceLast
  by_cases h : ms.length > k * 2
  · have hk2 : ¬ (k * 2 = 0) := by omega
    rw [if_pos h, if_neg hk2, h2]
    refine ⟨?_, rfl⟩
    rw [List.length_drop]
    omega
  · rw [if_neg h]
    refine ⟨by omega, ?_⟩
    have h0 : ms.length - 2 * k = 0 := by omega
    rw [h0, List.drop_zero]

/-- Witness for C4 (amended) at max_pairs = 1 and a three-turn list. -/
theorem trim_history_bound_witness :
    (trim_history 1 [sampleMsg, sampleMsg, sampleMsg]).length ≤ 2 * 1 ∧
    trim_history 1 [sampleMsg, sampleMsg, sampleMsg] =
      [sampleMsg, sampleMsg, sampleMsg].drop
        ([sampleMsg, sampleMsg, sampleMsg].length - 2 * 1) :=
  trim_history_bound 1 (by decide) [sampleMsg, sampleMsg, sampleMsg]

/-- C5 counterexample: with max_pairs = 0 the claimed window is the last
0 turns, but messages[-0:] keeps the whole list, so the built prompt is
not the system part followed by the last 0 turns. -/
theorem prepare_messages_zero_counterexample :
    ¬ (prepare_messages_for_model "" 0 [sampleMsg] =
        ([sampleMsg].drop ([sampleMsg].length - 2 * 0)).map toModelMessage) := by
  decide

/-- C5 amended: for every max_pairs ≥ 1, the prompt built by
_prepare_messages_for_model is the optional system entry followed by the
last 2 * max_pairs in-memory turns in order, each converted by role, and
whenever the system prompt is non-empty it is the first element. -/
theorem prepare_messages_spec (sys : String) (k : Nat) (hk : 1 ≤ k)
    (ms : List Message) :
    prepare_messages_for_model sys k ms =
      (if sys.isEmpty then []
       else [ModelMessage.human ("System: " ++ sys)]) ++
        (ms.drop (ms.length - 2 * k)).map toModelMessage ∧
    (sys.isEmpty = false →
      (prepare_messages_for_model sys k ms).head? =
        some (ModelMessage.human ("System: " ++ sys))) := by
  have hk2 : ¬ (k * 2 = 0) := by omega
  have hslice : pySliceLast (k * 2) ms = ms.drop (ms.length - 2 * k) := by
    unfold pySliceLast
    rw [if_neg hk2, Nat.mul_comm k 2]
  constructor
  · unfold prepare_messages_for_model
    rw [hslice]
  · intro hsys
    unfold prepare_messages_for_model
    rw [hsys]
    simp

/-- Witness for C5 (amended) at a non-empty system prompt, max_pairs = 1
and a one-turn history. -/
theorem prepare_messages_spec_witness :
    (prepare_messages_for_model "S" 1 [sampleMsg] =
      (if ("S" : String).isEmpty then []
       else [ModelMessage.human ("System: " ++ "S")]) ++
        ([sampleMsg].drop ([sampleMsg].length - 2 * 1)).map toModelMessage ∧
    (("S" : String).isEmpty = false →
      (prepare_messages_for_model "S" 1 [sampleMsg]).head? =
        some (ModelMessage.human ("System: " ++ "S")))) :=
  prepare_messages_spec "S" 1 (by decide) [sampleMsg]

/-- C6: over any run of successfully completed exchanges on a
conversation whose stored history starts empty, the title is persisted
and its frame emitted exactly on the first exchange (the one whose
pre-exchange stored history length is zero) and on no later exchange. -/
theorem title_generated_exactly_once (mem : List Message) (e : Exchange)
    (rest : List Exchange) :
    runTitleLog [] mem (e :: rest) =
      ([e.title], 1) :: rest.map (fun _ => ([], 0)) := by
  rw [runTitleLog, stream_response_ok_first]
  simp only [titleFrameCount_tokens_title_final]
  refine congrArg _ ?_
  exact runTitleLog_of_store_ne_nil _ (by simp) _ _

/-- C7: appending a user row and then an assistant row to a store whose
rows were persisted in chronological order and reloading through
_load_messages yields the in-memory history in exactly the persistence
order (ORDER BY timestamp ASC is modelled as a stable sort, so rows with
equal timestamps keep insertion order). -/
theorem load_roundtrip (rows : List DBRow) (u a : DBRow)
    (h : (rows ++ [u, a]).Pairwise
      (fun x y => x.timestamp ≤ y.timestamp)) :
    load_messages (rows ++ [u, a]) = (rows ++ [u, a]).map rowToMessage := by
  unfold load_messages get_conversation_messages
  rw [orderByTimestamp_eq_self _ h]

/-- Witness for C7: one exchange persisted with the shared timestamp 3
(the user row first, the assistant row second) reloads in persistence
order. -/
theorem load_roundtrip_witness :
    load_messages ([] ++ [rowU, rowA]) =
      ([] ++ [rowU, rowA]).map rowToMessage :=
  load_roundtrip [] rowU rowA (by decide)

/-- C8: when the engine raises after yielding a prefix of tokens (each
surviving the strip test), stream_response emits exactly those token
frames followed by one error frame with continuing false, and the store
gains only the user row: no assistant row is persisted for the
request. -/
theorem engine_failure_error_frame_no_partial_commit (store : List DBRow)
    (mem : List Message) (message : String) (tu tsm ta : Nat)
    (pre : List String) (err : String) (title : String)
    (h : ∀ c ∈ pre, keptChunk c = true) :
    (stream_response store mem message tu tsm ta
        (EngineResult.fail pre err) title).frames =
      pre.map tokenFrame ++ [errorFrame err] ∧
    (errorFrame err).continuing = false ∧
    (stream_response store mem message tu tsm ta
        (EngineResult.fail pre err) title).store =
      store ++ [⟨Role.user, message, tu⟩] ∧
    ∀ row ∈ (stream_response store mem message tu tsm ta
        (EngineResult.fail pre err) title).store,
      row.role = Role.assistant → row ∈ store := by
  have hyield : yieldedChunks pre = pre := List.filter_eq_self.mpr h
  rw [stream_response_fail_eq]
  refine ⟨by rw [hyield], rfl, rfl, ?_⟩
  intro row hrow hrole
  rcases List.mem_append.mp hrow with h1 | h1
  · exact h1
  · rcases List.mem_singleton.mp h1 with rfl
    exact absurd hrole (by simp)

/-- Witness for C8: a failure after three concrete tokens. -/
theorem engine_failure_error_frame_no_partial_commit_witness :
    (stream_response [] [] "m" 1 2 3
        (EngineResult.fail ["a", "b", "c"] "boom") "T").frames =
      ["a", "b", "c"].map tokenFrame ++ [errorFrame "boom"] ∧
    (errorFrame "boom").continuing = false ∧
    (stream_response [] [] "m" 1 2 3
        (EngineResult.fail ["a", "b", "c"] "boom") "T").store =
      [] ++ [⟨Role.user, "m", 1⟩] ∧
    ∀ row ∈ (stream_response [] [] "m" 1 2 3
        (EngineResult.fail ["a", "b", "c"] "boom") "T").store,
      row.role = Role.assistant → row ∈ ([] : List DBRow) :=
  engine_failure_error_frame_no_partial_commit [] [] "m" 1 2 3
    ["a", "b", "c"] "boom" "T" (by decide)

/-- C9: every exchange appends the user message twice to the in-memory
list (once in stream_response, once in send_message) plus one assistant
turn, so after a run of exchanges on a fresh conversation the in-memory
history is the concatenation of user/user/assistant triples and has
3 * N entries. -/
theorem user_message_appended_twice (store0 : List DBRow)
    (es : List Exchange) :
    (runConv ⟨store0, [], []⟩ es).mem = memLog es ∧
    (runConv ⟨store0, [], []⟩ es).mem.length = 3 * es.length := by
  have h := runConv_mem ⟨store0, [], []⟩ es
  simp only [List.nil_append] at h
  exact ⟨h, by rw [h, memLog_length]⟩

/-- C10: on a successful exchange the assistant turn is saved with
user_msg.timestamp tu, not with its own creation time ta, so both rows
of the exchange carry the same stored timestamp (ta does not occur in
the stored rows). -/
theorem assistant_persisted_with_user_timestamp (store : List DBRow)
    (mem : List Message) (message : String) (tu tsm ta : Nat)
    (chunks : List String) (title : String) :
    (stream_response store mem message tu tsm ta
        (EngineResult.ok chunks) title).store =
      store ++ [⟨Role.user, message, tu⟩,
                ⟨Role.assistant, accumulate chunks, tu⟩] := by
  by_cases hs : store = []
  · subst hs
    rw [stream_response_ok_first, List.nil_append]
  · rw [stream_response_ok_rest store hs]

end Chatbot

